import Mathlib

/-!
Verification development for the assuan_rs repository: a shallow embedding of
the Assuan line codec (request.rs, response.rs, lib.rs) and the connection
dispatcher (server.rs), with theorems settling the specification claims.

Embedding conventions:
* Rust strings are modelled at character level as `List Char` (`Str`); `trim`
  removes ASCII whitespace; byte-level subtleties of multi-byte UTF-8 are not
  modelled.  The one-byte slice `s[..1]` of the sources becomes a head-character
  test, and its panic on an empty string is modelled by the parsers returning
  `none`.
* Fallible/panicking code returns `Option`; the dispatcher's `todo!()` and
  `unwrap()` panics are an explicit `crash` outcome.
* The `Command` enum and the `errors` module are not present in the sources
  (only `command.rs` constants and call sites are); they are modelled from the
  spec where noted.
-/

abbrev Str := List Char

def str (s : String) : Str := s.toList

/-- ASCII whitespace, the fragment of Rust `char::is_whitespace` relevant here. -/
def isWS (c : Char) : Bool := c = ' ' || c = '\t' || c = '\n' || c = '\r'

/-- Rust `str::trim_start` at character level. -/
def trimLeft (l : Str) : Str := l.dropWhile isWS

/-- Rust `str::trim_end` at character level. -/
def trimRight (l : Str) : Str := (l.reverse.dropWhile isWS).reverse

/-- Rust `str::trim` at character level. -/
def trim (l : Str) : Str := trimRight (trimLeft l)

/-- Rust `str::split_once`: split on the first occurrence of `sep`, neither
part containing the separator occurrence itself. -/
def splitOnce (sep : Char) : Str → Option (Str × Str)
  | [] => none
  | c :: rest =>
    if c = sep then some ([], rest)
    else (splitOnce sep rest).map (fun p => (c :: p.1, p.2))

/-- The shared first phase of all four parsers (request.rs:80, response.rs:78,
lib.rs:98, lib.rs:191): split the line on the first space; an absent or empty
remainder is dropped; keyword and remainder are trimmed except that a line with
no space at all keeps its keyword untrimmed. -/
def commandAndParameters (input : Str) : Str × Option Str :=
  match splitOnce ' ' input with
  | none => (input, none)
  | some (a, []) => (trim a, none)
  | some (a, b) => (trim a, some (trim b))

/-- The protocol keyword vocabulary.  Modelled from the spec: the `Command`
enum itself is not in the sources; its variants follow the constants of
command.rs. -/
inductive Command where
  | Bye | Reset | End | Help | Quit | Option | Cancel | Nop
  | Ok | Err | S | Inquire
  | D | Comment
deriving DecidableEq

/-- Modelled from the spec: `Command::try_from(&str)` recognises exactly the
canonical textual forms of command.rs. -/
def commandOfStr (s : Str) : Option Command :=
  if s = str ("BYE") then some .Bye
  else if s = str ("RESET") then some .Reset
  else if s = str ("END") then some .End
  else if s = str ("HELP") then some .Help
  else if s = str ("QUIT") then some .Quit
  else if s = str ("OPTION") then some .Option
  else if s = str ("CANCEL") then some .Cancel
  else if s = str ("NOP") then some .Nop
  else if s = str ("OK") then some .Ok
  else if s = str ("ERR") then some .Err
  else if s = str ("S") then some .S
  else if s = str ("INQUIRE") then some .Inquire
  else if s = str ("D") then some .D
  else if s = str ("#") then some .Comment
  else none

/-- request.rs `Request` (owned-string variant; lib.rs `Request<'a>` has the
same shape, so the type is shared by both parsers). -/
inductive Request where
  | Comment (v : Option Str)
  | D (v : Str)
  | Bye
  | Reset
  | End
  | Help
  | Quit
  | Option (p : Str × Option Str)
  | Cancel
  | Nop
  | Unknown (p : Str × Option Str)
deriving DecidableEq

/-- Rust `match s { "" => None, s => Some(s) }` after a trim. -/
def optOfStr (t : Str) : Option Str :=
  match t with
  | [] => none
  | s => some s

/-- The keyword dispatch of request.rs lines 98-118 (after `Command::try_from`
has succeeded). -/
def dispatchReq (cmd : Command) (kw : Str) (params : Option Str) : Request :=
  match cmd, params with
  | .Bye, _ => .Bye
  | .Reset, _ => .Reset
  | .End, _ => .End
  | .Help, _ => .Help
  | .Quit, _ => .Quit
  | .Option, some arg =>
    (match splitOnce '=' arg with
     | some (k, v) => .Option (trim k, some (trim v))
     | none =>
       match splitOnce ' ' arg with
       | some (k, v) => .Option (trim k, some (trim v))
       | none => .Option (trim arg, none))
  | .Cancel, _ => .Cancel
  | .Nop, _ => .Nop
  | .D, some p => .D p
  | _, _ => .Unknown (kw, params)

/-- request.rs lines 93-118: `Command::try_from` on the keyword, `Unknown` on
failure, the keyword dispatch on success. -/
def reqBody (kw : Str) (params : Option Str) : Request :=
  match commandOfStr kw with
  | none => .Unknown (kw, params)
  | some cmd => dispatchReq cmd kw params

/-- request.rs `Request::from(&str)` (lines 79-119).  Returns `none` exactly
where the Rust code panics: the `[..1]` slice of an empty keyword. -/
def reqFrom (input : Str) : Option Request :=
  match commandAndParameters input with
  | ([], _) => none
  | (c :: cs, params) =>
    if c = '#' then some (.Comment (optOfStr (trim (input.drop 1))))
    else some (reqBody (c :: cs) params)

/-- request.rs `Display for Request` (lines 53-76). -/
def reqRender (r : Request) : Str :=
  match r with
  | .Bye => str ("BYE")
  | .Reset => str ("RESET")
  | .End => str ("END")
  | .Help => str ("HELP")
  | .Quit => str ("QUIT")
  | .Cancel => str ("CANCEL")
  | .Nop => str ("NOP")
  | .D v => str ("D ") ++ v
  | .Comment none => str ("#")
  | .Comment (some v) => str ("# ") ++ v
  | .Option (k, none) => str ("OPTION ") ++ k
  | .Option (k, some v) => str ("OPTION ") ++ k ++ str ("=") ++ v
  | .Unknown (c, none) => c
  | .Unknown (c, some p) => c ++ str (" ") ++ p

example : reqFrom (str ("BYE")) = some Request.Bye := by decide
example : reqFrom (str ("RESET")) = some Request.Reset := by decide
example : reqFrom (str ("#")) = some (Request.Comment none) := by decide
example : reqFrom (str ("# some content"))
    = some (Request.Comment (some (str ("some content")))) := by decide
example : reqFrom (str ("#### some content"))
    = some (Request.Comment (some (str ("### some content")))) := by decide
example : reqFrom (str ("OPTION"))
    = some (Request.Unknown (str ("OPTION"), none)) := by decide
example : reqFrom (str ("OPTION option"))
    = some (Request.Option (str ("option"), none)) := by decide
example : reqFrom (str ("OPTION option value"))
    = some (Request.Option (str ("option"), some (str ("value")))) := by decide
example : reqFrom (str ("OPTION option=value"))
    = some (Request.Option (str ("option"), some (str ("value")))) := by decide
example : reqFrom (str ("OPTION option    =  value"))
    = some (Request.Option (str ("option"), some (str ("value")))) := by decide
example : reqFrom (str ("D")) = some (Request.Unknown (str ("D"), none)) := by decide
example : reqFrom (str ("D with data")) = some (Request.D (str ("with data"))) := by decide
example : reqFrom (str ("UNKNOWN")) = some (Request.Unknown (str ("UNKNOWN"), none)) := by decide
example : reqFrom (str ("")) = none := by decide

/-- Modelled from the spec: the `errors` module is not in the sources.  The
Error Taxonomy's well-known code set is represented by the four codes the rest
of the code uses; `Eof` is fixed at 16383 by the response.rs tests, the other
numeric values are representative members of the protocol family's code space. -/
inductive GpgErrorCode where
  | Eof | TooLarge | Unexpected | UnknownErrno
deriving DecidableEq

/-- Modelled from the spec: canonical numeric value of each well-known code. -/
def gpgCode : GpgErrorCode → Nat
  | .Eof => 16383
  | .TooLarge => 92
  | .Unexpected => 66
  | .UnknownErrno => 32767

/-- Modelled from the spec: the numeric code space decoded to its symbolic
member where one exists. -/
def gpgOfNat (n : Nat) : Option GpgErrorCode :=
  if n = 16383 then some .Eof
  else if n = 92 then some .TooLarge
  else if n = 66 then some .Unexpected
  else if n = 32767 then some .UnknownErrno
  else none

/-- Modelled from the spec: the code token is parsed as an unsigned (32-bit)
integer; a non-numeric or out-of-range token fails to parse. -/
def parseU32 (s : Str) : Option Nat :=
  if s ≠ [] ∧ (∀ c ∈ s, c.isDigit) ∧ s.foldl (fun a c => a * 10 + (c.toNat - 48)) 0 < 2 ^ 32
  then some (s.foldl (fun a c => a * 10 + (c.toNat - 48)) 0)
  else none

/-- Modelled from the spec: `errors::GpgErrorCode::try_from(&str)`. -/
def gpgTryFrom (s : Str) : Option GpgErrorCode := (parseU32 s).bind gpgOfNat

/-- Modelled from the spec: `errors::Custom::try_from(&str)` accepts any
well-formed unsigned integer, carried as its raw value. -/
def customTryFrom (s : Str) : Option Nat := parseU32 s

/-- response.rs `ResponseErr`; the `errors::Custom` newtype is collapsed to the
number it carries. -/
inductive ResponseErr where
  | Gpg (c : GpgErrorCode)
  | Custom (c : Nat)
deriving DecidableEq

/-- The decoding chain of response.rs lines 107-117: known code first, then
custom numeric code, then the `UnknownErrno` fallback. -/
def decodeErrTok (e : Str) : ResponseErr :=
  match gpgTryFrom e with
  | some ec => .Gpg ec
  | none =>
    match customTryFrom e with
    | some ec => .Custom ec
    | none => .Gpg .UnknownErrno

/-- response.rs `Response`. -/
inductive Response where
  | Ok (v : Option Str)
  | Err (p : ResponseErr × Option Str)
  | S (p : Str × Str)
  | D (v : Str)
  | Inquire (p : Str × Str)
  | Comment (v : Option Str)
  | Custom (p : Str × Option Str)
deriving DecidableEq

/-- The remainder split of response.rs lines 101-105: first space separates the
code token from the (possibly absent) description. -/
def errSplit (p : Str) : Str × Option Str :=
  match splitOnce ' ' p with
  | none => (p, none)
  | some (e, []) => (e, none)
  | some (e, v) => (e, some v)

/-- The keyword dispatch of response.rs lines 96-133 (after `Command::try_from`
has succeeded). -/
def dispatchResp (cmd : Command) (kw : Str) (params : Option Str) : Response :=
  match cmd, params with
  | .Ok, v => .Ok v
  | .D, some p => .D p
  | .Err, some p =>
    (match errSplit p with
     | (e, d) => .Err (decodeErrTok e, d))
  | .Inquire, some p =>
    (match splitOnce ' ' p with
     | none => .Custom (str ("INQUIRE"), some p)
     | some (_, []) => .Custom (str ("INQUIRE"), some p)
     | some (k, v) => .Inquire (k, v))
  | .S, some p =>
    (match splitOnce ' ' p with
     | none => .Custom (str ("S"), some p)
     | some (_, []) => .Custom (str ("S"), some p)
     | some (k, v) => .S (k, v))
  | _, _ => .Custom (kw, params)

/-- response.rs lines 91-133: `Command::try_from` on the keyword, `Custom` on
failure, the keyword dispatch on success. -/
def respBody (kw : Str) (params : Option Str) : Response :=
  match commandOfStr kw with
  | none => .Custom (kw, params)
  | some cmd => dispatchResp cmd kw params

/-- response.rs `Response::from(&str)` (lines 77-134).  Returns `none` exactly
where the Rust code panics: the `[..1]` slice of an empty keyword. -/
def respFrom (input : Str) : Option Response :=
  match commandAndParameters input with
  | ([], _) => none
  | (c :: cs, params) =>
    if c = '#' then some (.Comment (optOfStr (trim (input.drop 1))))
    else some (respBody (c :: cs) params)

/-- Modelled from the spec: rendering of an error code is its canonical
numeric string (`Display` of the missing `errors` module). -/
def errRender (e : ResponseErr) : Str :=
  match e with
  | .Gpg c => Nat.toDigits 10 (gpgCode c)
  | .Custom n => Nat.toDigits 10 n

/-- response.rs `Display for Response` (lines 53-74). -/
def respRender (r : Response) : Str :=
  match r with
  | .D v => str ("D ") ++ v
  | .S (k, v) => str ("S ") ++ k ++ str (" ") ++ v
  | .Inquire (k, v) => str ("INQUIRE ") ++ k ++ str (" ") ++ v
  | .Comment none => str ("#")
  | .Comment (some v) => str ("# ") ++ v
  | .Ok none => str ("OK")
  | .Ok (some v) => str ("OK ") ++ v
  | .Err (id, none) => str ("ERR ") ++ errRender id
  | .Err (id, some v) => str ("ERR ") ++ errRender id ++ str (" ") ++ v
  | .Custom (s, none) => s
  | .Custom (s, some v) => s ++ str (" ") ++ v

example : respFrom (str ("OK")) = some (Response.Ok none) := by decide
example : respFrom (str ("OK data")) = some (Response.Ok (some (str ("data")))) := by decide
example : respFrom (str ("ERR")) = some (Response.Custom (str ("ERR"), none)) := by decide
example : respFrom (str ("ERR 16383"))
    = some (Response.Err (.Gpg .Eof, none)) := by decide
example : respFrom (str ("ERR 16383 with description"))
    = some (Response.Err (.Gpg .Eof, some (str ("with description")))) := by decide
example : respFrom (str ("ERR 32909 with description"))
    = some (Response.Err (.Custom 32909, some (str ("with description")))) := by decide
example : respFrom (str ("S")) = some (Response.Custom (str ("S"), none)) := by decide
example : respFrom (str ("S keyword"))
    = some (Response.Custom (str ("S"), some (str ("keyword")))) := by decide
example : respFrom (str ("S keyword status information"))
    = some (Response.S (str ("keyword"), str ("status information"))) := by decide
example : respFrom (str ("INQUIRE"))
    = some (Response.Custom (str ("INQUIRE"), none)) := by decide
example : respFrom (str ("INQUIRE keyword"))
    = some (Response.Custom (str ("INQUIRE"), some (str ("keyword")))) := by decide
example : respFrom (str ("INQUIRE keyword params"))
    = some (Response.Inquire (str ("keyword"), str ("params"))) := by decide
example : respFrom (str ("D")) = some (Response.Custom (str ("D"), none)) := by decide
example : respFrom (str ("D some data")) = some (Response.D (str ("some data"))) := by decide
example : respFrom (str ("#")) = some (Response.Comment none) := by decide
example : respFrom (str ("### comment data"))
    = some (Response.Comment (some (str ("## comment data")))) := by decide

/-- The keyword dispatch of lib.rs `Request::from` lines 108-128: a direct
string match, with no trimming inside the OPTION argument. -/
def reqBodyL (kw : Str) (params : Option Str) : Request :=
  if kw = str ("BYE") then .Bye
  else if kw = str ("RESET") then .Reset
  else if kw = str ("END") then .End
  else if kw = str ("HELP") then .Help
  else if kw = str ("QUIT") then .Quit
  else if kw = str ("OPTION") then
    (match params with
     | some arg =>
       (match splitOnce '=' arg with
        | some (k, v) => .Option (k, some v)
        | none =>
          match splitOnce ' ' arg with
          | some (k, v) => .Option (k, some v)
          | none => .Option (arg, none))
     | none => .Unknown (kw, params))
  else if kw = str ("CANCEL") then .Cancel
  else if kw = str ("NOP") then .Nop
  else if kw = str ("D") then
    (match params with
     | some p => .D p
     | none => .Unknown (kw, params))
  else .Unknown (kw, params)

/-- lib.rs `Request::from(&str)` (lines 96-130); the comment branch keeps the
split remainder rather than re-reading the raw line. -/
def reqFromL (input : Str) : Option Request :=
  match commandAndParameters input with
  | ([], _) => none
  | (c :: cs, params) =>
    if c = '#' then some (.Comment params)
    else some (reqBodyL (c :: cs) params)

/-- lib.rs `Response<'a>`: the `Err` variant carries the raw code token. -/
inductive LibResponse where
  | Ok (v : Option Str)
  | Err (p : Str × Option Str)
  | S (p : Str × Str)
  | D (v : Str)
  | Inquire (p : Str × Str)
  | Comment (v : Option Str)
  | Custom (p : Str × Option Str)
deriving DecidableEq

/-- The keyword dispatch of lib.rs `Response::from` lines 202-225. -/
def respBodyL (kw : Str) (params : Option Str) : LibResponse :=
  if kw = str ("OK") then .Ok params
  else if kw = str ("D") then
    (match params with
     | some p => .D p
     | none => .Custom (kw, params))
  else if kw = str ("ERR") then
    (match params with
     | some p => .Err (errSplit p)
     | none => .Custom (kw, params))
  else if kw = str ("INQUIRE") then
    (match params with
     | some p =>
       (match splitOnce ' ' p with
        | none => .Custom (kw, params)
        | some (_, []) => .Custom (kw, params)
        | some (k, v) => .Inquire (k, v))
     | none => .Custom (kw, params))
  else if kw = str ("S") then
    (match params with
     | some p =>
       (match splitOnce ' ' p with
        | none => .Custom (kw, params)
        | some (_, []) => .Custom (kw, params)
        | some (k, v) => .S (k, v))
     | none => .Custom (kw, params))
  else .Custom (kw, params)

/-- lib.rs `Response::from(&str)` (lines 189-227). -/
def respFromL (input : Str) : Option LibResponse :=
  match commandAndParameters input with
  | ([], _) => none
  | (c :: cs, params) =>
    if c = '#' then some (.Comment params)
    else some (respBodyL (c :: cs) params)

example : reqFromL (str ("BYE")) = some Request.Bye := by decide
example : reqFromL (str ("#")) = some (Request.Comment none) := by decide
example : reqFromL (str ("# some content"))
    = some (Request.Comment (some (str ("some content")))) := by decide
example : reqFromL (str ("OPTION")) = some (Request.Unknown (str ("OPTION"), none)) := by decide
example : reqFromL (str ("OPTION OPTION=VALUE"))
    = some (Request.Option (str ("OPTION"), some (str ("VALUE")))) := by decide
example : reqFromL (str ("D")) = some (Request.Unknown (str ("D"), none)) := by decide
example : reqFromL (str ("D DATA")) = some (Request.D (str ("DATA"))) := by decide
example : respFromL (str ("OK")) = some (LibResponse.Ok none) := by decide
example : respFromL (str ("ERR id"))
    = some (LibResponse.Err (str ("id"), none)) := by decide
example : respFromL (str ("ERR id a description"))
    = some (LibResponse.Err (str ("id"), some (str ("a description")))) := by decide
example : respFromL (str ("S keyword"))
    = some (LibResponse.Custom (str ("S"), some (str ("keyword")))) := by decide
example : respFromL (str ("S keyword status information"))
    = some (LibResponse.S (str ("keyword"), str ("status information"))) := by decide
example : respFromL (str ("INQUIRE keyword params"))
    = some (LibResponse.Inquire (str ("keyword"), str ("params"))) := by decide
example : respFromL (str ("# comment data"))
    = some (LibResponse.Comment (some (str ("comment data")))) := by decide

/-- server.rs `Handler` trait: the asynchronous operations are modelled as
pure functions, `reset` (a must-not-fail notification) as a no-op. -/
structure Handler where
  handle : Str → Option Str → Except (ResponseErr × Option Str) (Option Response)
  help : Option (List Str)
  option : Str → Option Str → Except (ResponseErr × Option Str) Response

/-- The output sink: an oracle saying whether the n-th write attempt succeeds,
the attempt counter, and the successfully written lines. -/
structure WState where
  oracle : Nat → Bool
  idx : Nat
  out : List Str

/-- One `writeln!` attempt: on success the rendered line is appended. -/
def tryWrite (ws : WState) (line : Str) : WState × Bool :=
  if ws.oracle ws.idx then
    (⟨ws.oracle, ws.idx + 1, ws.out ++ [line]⟩, true)
  else
    (⟨ws.oracle, ws.idx + 1, ws.out⟩, false)

/-- Outcome of the dispatcher: normal return, the `ServerError::Write` return,
or a Rust panic (`unwrap` / `todo!`). -/
inductive Outcome where
  | ok
  | writeError
  | crash
deriving DecidableEq

/-- One step of the read loop: continue, or halt with an outcome. -/
inductive Step where
  | cont (ws : WState)
  | halt (o : Outcome) (ws : WState)

/-- Write a response; a failed write is fatal (server.rs lines 144-146 and the
per-branch early returns). -/
def writeStep (ws : WState) (r : Response) : Step :=
  match tryWrite ws (respRender r) with
  | (ws', true) => .cont ws'
  | (ws', false) => .halt .writeError ws'

/-- The request dispatch of server.rs lines 90-146. -/
def dispatchLine (h : Handler) (ws : WState) (req : Request) : Step :=
  match req with
  | .Comment _ => .cont ws
  | .Reset => writeStep ws (.Ok none)
  | .Bye => writeStep ws (.Ok none)
  | .Nop => writeStep ws (.Ok none)
  | .Option (s, v) =>
    (match h.option s v with
     | .ok r => writeStep ws r
     | .error e => writeStep ws (.Err e))
  | .Unknown (v, p) =>
    (match h.handle v p with
     | .ok none => .halt .ok ws
     | .ok (some r) => writeStep ws r
     | .error e => writeStep ws (.Err e))
  | .D _ => .halt .crash ws
  | .End => .halt .crash ws
  | .Help =>
    (match h.help with
     | some v =>
       writeStep (v.foldl (fun a s => (tryWrite a (respRender (.Comment (some s)))).1) ws)
         (.Ok none)
     | none => writeStep ws (.Ok none))
  | .Cancel => .halt .crash ws
  | .Quit => .halt .ok ws

/-- Parse and dispatch a line that passed the emptiness and length checks. -/
def processCore (h : Handler) (ws : WState) (line : Str) : Step :=
  match reqFrom line with
  | none => .halt .crash ws
  | some req => dispatchLine h ws req

/-- server.rs lines 53-148: handle one item of the input stream (a read error
or a line). -/
def processItem (h : Handler) (ws : WState) (item : Except Str Str) : Step :=
  match item with
  | .error e => writeStep ws (.Err (.Gpg .Unexpected, some e))
  | .ok rawLine =>
    let line := trim rawLine
    if line = [] then .cont ws
    else if line.length > 1000 then
      writeStep ws (.Err (.Gpg .TooLarge, none))
    else processCore h ws line

/-- The read loop of `start`; exhausting the input returns `Ok(())`. -/
def runLoop (h : Handler) : List (Except Str Str) → WState → Outcome × WState
  | [], ws => (.ok, ws)
  | item :: rest, ws =>
    match processItem h ws item with
    | .cont ws' => runLoop h rest ws'
    | .halt o ws' => (o, ws')

/-- The greeting line written by server.rs lines 45-51. -/
def greeting : Str := respRender (.Ok (some (str ("Pleased to meet you"))))

/-- server.rs `start`: write the greeting (its failure is an `unwrap` panic),
then run the loop; the result is the outcome and the written lines. -/
def start (h : Handler) (oracle : Nat → Bool) (items : List (Except Str Str)) :
    Outcome × List Str :=
  match tryWrite ⟨oracle, 0, []⟩ greeting with
  | (ws, true) =>
    (match runLoop h items ws with
     | (o, ws') => (o, ws'.out))
  | (ws, false) => (.crash, ws.out)

/-- An output sink whose writes always succeed. -/
def allOk : Nat → Bool := fun _ => true

/-- A handler used to exercise the dispatcher at concrete inputs. -/
def testHandler : Handler where
  handle := fun _ _ => .ok (some (.Ok none))
  help := some [str ("FOO"), str ("BAR")]
  option := fun _ _ => .ok (.Ok none)

example : start testHandler allOk [.ok (str ("NOP"))]
    = (.ok, [greeting, str ("OK")]) := by decide
example : start testHandler allOk [.ok (str ("QUIT")), .ok (str ("NOP"))]
    = (.ok, [greeting]) := by decide
example : start testHandler allOk [.ok (str (""))] = (.ok, [greeting]) := by decide
example : start testHandler allOk [.ok (str ("HELP"))]
    = (.ok, [greeting, str ("# FOO"), str ("# BAR"), str ("OK")]) := by decide
example : start testHandler allOk [.ok (str ("D x"))] = (.crash, [greeting]) := by decide
example : start testHandler (fun _ => false) [.ok (str ("NOP"))] = (.crash, []) := by decide
example : start testHandler allOk [.error (str ("boom")), .ok (str ("NOP"))]
    = (.ok, [greeting, str ("ERR 66 boom"), str ("OK")]) := by decide

theorem splitOnce_eq_none_of_not_mem (sep : Char) (l : Str) (h : sep ∉ l) :
    splitOnce sep l = none := by
  induction l with
  | nil => rfl
  | cons c t ih =>
    simp only [List.mem_cons, not_or] at h
    simp [splitOnce, Ne.symm h.1, ih h.2]

theorem splitOnce_append (sep : Char) (A B : Str) (h : sep ∉ A) :
    splitOnce sep (A ++ sep :: B) = some (A, B) := by
  induction A with
  | nil => simp [splitOnce]
  | cons c t ih =>
    simp only [List.mem_cons, not_or] at h
    simp [splitOnce, Ne.symm h.1, ih h.2]

theorem dropWhile_append_of_all {p : Char → Bool} (A B : Str) (h : ∀ c ∈ A, p c = true) :
    List.dropWhile p (A ++ B) = List.dropWhile p B := by
  induction A with
  | nil => rfl
  | cons c t ih =>
    simp only [List.cons_append, List.dropWhile_cons]
    rw [h c (List.mem_cons_self c t)]
    exact ih fun x hx => h x (List.mem_cons_of_mem c hx)

theorem dropWhile_append_singleton {p : Char → Bool} (c : Char) (hc : p c = false) (xs : Str) :
    List.dropWhile p (xs ++ [c]) = List.dropWhile p xs ++ [c] := by
  induction xs with
  | nil => simp [List.dropWhile, hc]
  | cons x t ih =>
    simp only [List.cons_append, List.dropWhile_cons]
    cases hpx : p x <;> simp [ih]

theorem dropWhile_eq_self_of_all {p : Char → Bool} (l : Str) (h : ∀ c ∈ l, p c = false) :
    List.dropWhile p l = l := by
  cases l with
  | nil => rfl
  | cons c t => simp [List.dropWhile_cons, h c (List.mem_cons_self c t)]

theorem length_dropWhile_le' (p : Char → Bool) (l : Str) :
    (List.dropWhile p l).length ≤ l.length := by
  induction l with
  | nil => simp
  | cons c t ih =>
    simp only [List.dropWhile_cons]
    cases hpc : p c
    · simp
    · simpa using Nat.le_trans ih (Nat.le_succ _)

theorem dropWhile_cons_head {p : Char → Bool} (c : Char) (t : Str)
    (h : List.dropWhile p (c :: t) = c :: t) : p c = false := by
  cases hpc : p c
  · rfl
  · exfalso
    rw [List.dropWhile_cons, hpc, if_pos rfl] at h
    have hlen := length_dropWhile_le' p t
    rw [h] at hlen
    simp only [List.length_cons] at hlen
    omega

theorem trimLeft_cons_of_not_ws {c : Char} {l : Str} (h : isWS c = false) :
    trimLeft (c :: l) = c :: l := by
  simp [trimLeft, List.dropWhile_cons, h]

theorem trimRight_cons_of_not_ws {c : Char} {l : Str} (h : isWS c = false) :
    trimRight (c :: l) = c :: trimRight l := by
  simp only [trimRight, List.reverse_cons]
  rw [dropWhile_append_singleton c h, List.reverse_append]
  rfl

theorem trim_cons_of_not_ws {c : Char} {l : Str} (h : isWS c = false) :
    trim (c :: l) = c :: trimRight l := by
  rw [trim, trimLeft_cons_of_not_ws h, trimRight_cons_of_not_ws h]

theorem trimLeft_eq_self_of_all {l : Str} (h : ∀ c ∈ l, isWS c = false) :
    trimLeft l = l := dropWhile_eq_self_of_all l h

theorem trimRight_eq_self_of_all {l : Str} (h : ∀ c ∈ l, isWS c = false) :
    trimRight l = l := by
  rw [trimRight, dropWhile_eq_self_of_all _ (fun c hc => h c (List.mem_reverse.mp hc))]
  simp

theorem trim_eq_self_of_all {l : Str} (h : ∀ c ∈ l, isWS c = false) :
    trim l = l := by
  rw [trim, trimLeft_eq_self_of_all h, trimRight_eq_self_of_all h]

theorem trimLeft_append_ws {w l : Str} (h : ∀ c ∈ w, isWS c = true) :
    trimLeft (w ++ l) = trimLeft l := dropWhile_append_of_all w l h

theorem trimRight_append_ws {l w : Str} (h : ∀ c ∈ w, isWS c = true) :
    trimRight (l ++ w) = trimRight l := by
  rw [trimRight, List.reverse_append,
    dropWhile_append_of_all _ _ (fun c hc => h c (List.mem_reverse.mp hc))]
  rfl

theorem trimLeft_append_left {l r : Str} (hne : l ≠ []) (hl : trimLeft l = l) :
    trimLeft (l ++ r) = l ++ r := by
  cases l with
  | nil => exact absurd rfl hne
  | cons c t =>
    have hc : isWS c = false := dropWhile_cons_head c t hl
    simpa using trimLeft_cons_of_not_ws (l := t ++ r) hc

theorem trimRight_append_right {l r : Str} (hne : r ≠ []) (hr : trimRight r = r) :
    trimRight (l ++ r) = l ++ r := by
  have hrev : List.dropWhile isWS r.reverse = r.reverse := by
    have := congrArg List.reverse hr
    rwa [trimRight, List.reverse_reverse] at this
  cases hcr : r.reverse with
  | nil => exact absurd (by simpa using congrArg List.reverse hcr) hne
  | cons b y =>
    rw [hcr] at hrev
    have hb : isWS b = false := dropWhile_cons_head b y hrev
    rw [trimRight, List.reverse_append, hcr, List.cons_append, List.dropWhile_cons, hb]
    simp only [Bool.false_eq_true, if_false]
    rw [← List.cons_append, ← hcr, ← List.reverse_append, List.reverse_reverse]

theorem trim_append_clean {l r : Str} (hlne : l ≠ []) (hl : trimLeft l = l)
    (hrne : r ≠ []) (hr : trimRight r = r) : trim (l ++ r) = l ++ r := by
  rw [trim, trimLeft_append_left hlne hl, trimRight_append_right hrne hr]

theorem not_mem_space_of_clean {l : Str} (h : ∀ c ∈ l, isWS c = false) : ' ' ∉ l := by
  intro hmem
  have := h ' ' hmem
  simp [isWS] at this

theorem cAP_no_space {l : Str} (h : ' ' ∉ l) : commandAndParameters l = (l, none) := by
  rw [commandAndParameters, splitOnce_eq_none_of_not_mem ' ' l h]

theorem cAP_of_append {A B : Str} (h : ' ' ∉ A) :
    commandAndParameters (A ++ ' ' :: B)
      = (trim A, if B = [] then none else some (trim B)) := by
  rw [commandAndParameters, splitOnce_append ' ' A B h]
  cases B with
  | nil => rfl
  | cons b bs => simp

theorem reqFrom_eq_body {input : Str} {c : Char} {cs : Str} {params : Option Str}
    (h : commandAndParameters input = (c :: cs, params)) (hc : c ≠ '#') :
    reqFrom input = some (reqBody (c :: cs) params) := by
  unfold reqFrom
  rw [h]
  simp [hc]

theorem respFrom_eq_body {input : Str} {c : Char} {cs : Str} {params : Option Str}
    (h : commandAndParameters input = (c :: cs, params)) (hc : c ≠ '#') :
    respFrom input = some (respBody (c :: cs) params) := by
  unfold respFrom
  rw [h]
  simp [hc]

theorem reqFromL_eq_body {input : Str} {c : Char} {cs : Str} {params : Option Str}
    (h : commandAndParameters input = (c :: cs, params)) (hc : c ≠ '#') :
    reqFromL input = some (reqBodyL (c :: cs) params) := by
  unfold reqFromL
  rw [h]
  simp [hc]

theorem respFromL_eq_body {input : Str} {c : Char} {cs : Str} {params : Option Str}
    (h : commandAndParameters input = (c :: cs, params)) (hc : c ≠ '#') :
    respFromL input = some (respBodyL (c :: cs) params) := by
  unfold respFromL
  rw [h]
  simp [hc]

theorem reqFrom_comment (s : Str) :
    reqFrom ('#' :: s) = some (Request.Comment (optOfStr (trim s))) := by
  have hhash : isWS '#' = false := by decide
  cases hsp : splitOnce ' ' s with
  | none =>
    have hcap : commandAndParameters ('#' :: s) = ('#' :: s, none) := by
      rw [commandAndParameters]
      simp [splitOnce, hsp]
    unfold reqFrom
    rw [hcap]
    simp
  | some ab =>
    obtain ⟨a, b⟩ := ab
    have hsp2 : splitOnce ' ' ('#' :: s) = some ('#' :: a, b) := by
      simp [splitOnce, hsp]
    cases b with
    | nil =>
      have hcap : commandAndParameters ('#' :: s) = ('#' :: trimRight a, none) := by
        rw [commandAndParameters, hsp2]
        simp [trim_cons_of_not_ws hhash]
      unfold reqFrom
      rw [hcap]
      simp
    | cons b0 bs =>
      have hcap : commandAndParameters ('#' :: s)
          = ('#' :: trimRight a, some (trim (b0 :: bs))) := by
        rw [commandAndParameters, hsp2]
        simp [trim_cons_of_not_ws hhash]
      unfold reqFrom
      rw [hcap]
      simp



/-- C9: for every well-known zero-argument request keyword (BYE, RESET, END,
HELP, QUIT, CANCEL, NOP), parsing the rendered form of its request variant
yields the same variant back. -/
theorem zeroArgKeywordRoundTrip :
    reqFrom (reqRender .Bye) = some Request.Bye ∧
    reqFrom (reqRender .Reset) = some Request.Reset ∧
    reqFrom (reqRender .End) = some Request.End ∧
    reqFrom (reqRender .Help) = some Request.Help ∧
    reqFrom (reqRender .Quit) = some Request.Quit ∧
    reqFrom (reqRender .Cancel) = some Request.Cancel ∧
    reqFrom (reqRender .Nop) = some Request.Nop := by
  decide

/-- C8: for a request line starting with `#`, only the first `#` is the
marker; everything after it (subsequent contiguous `#` characters included) is
the comment text, trimmed and absent if empty after trimming; in particular
parsing "###text" yields Comment(Some("##text")). -/
theorem commentMarkerParse :
    (∀ s : Str, reqFrom ('#' :: s) = some (Request.Comment (optOfStr (trim s)))) ∧
    reqFrom (str ("###text")) = some (Request.Comment (some (str ("##text")))) :=
  ⟨reqFrom_comment, by decide⟩

theorem trim_append_ws_right {n w : Str} (hne : n ≠ []) (hl : trimLeft n = n)
    (hr : trimRight n = n) (hw : ∀ c ∈ w, isWS c = true) : trim (n ++ w) = n := by
  rw [trim, trimLeft_append_left hne hl, trimRight_append_ws hw, hr]

theorem trim_ws_append_left {w v : Str} (hw : ∀ c ∈ w, isWS c = true)
    (hl : trimLeft v = v) (hr : trimRight v = v) : trim (w ++ v) = v := by
  rw [trim, trimLeft_append_ws hw, hl, hr]

/-- The cleanliness condition on an OPTION name or value token: non-empty, no
whitespace, no equals sign. -/
def cleanTok (l : Str) : Prop := l ≠ [] ∧ ∀ c ∈ l, isWS c = false ∧ c ≠ '='

instance (l : Str) : Decidable (cleanTok l) := by
  unfold cleanTok
  infer_instance

theorem cleanTok_not_ws {l : Str} (h : cleanTok l) : ∀ c ∈ l, isWS c = false :=
  fun c hc => (h.2 c hc).1

theorem cleanTok_not_mem_space {l : Str} (h : cleanTok l) : ' ' ∉ l :=
  not_mem_space_of_clean (cleanTok_not_ws h)

theorem cleanTok_not_mem_eq {l : Str} (h : cleanTok l) : '=' ∉ l :=
  fun hmem => (h.2 '=' hmem).2 rfl

theorem not_mem_eq_of_ws {w : Str} (hw : ∀ c ∈ w, isWS c = true) : '=' ∉ w := by
  intro hmem
  exact absurd (hw '=' hmem) (by decide)

theorem not_mem_space_append {A B : Str} (hA : ' ' ∉ A) (hB : ' ' ∉ B) :
    ' ' ∉ A ++ B := by
  intro hmem
  rcases List.mem_append.mp hmem with h | h
  · exact hA h
  · exact hB h

theorem cAP_keyword_space {A rest : Str} (hA : ' ' ∉ A) (hAtrim : trim A = A)
    (hne : rest ≠ []) (htrim : trim rest = rest) :
    commandAndParameters (A ++ ' ' :: rest) = (A, some rest) := by
  rw [cAP_of_append hA, hAtrim, if_neg hne, htrim]

/-- C7: OPTION argument parsing: `name=value`, `name value`, and
`name <ws> = <ws> value` all parse to Option(name, Some(value)); `OPTION name`
parses to Option(name, None); bare `OPTION` parses to Unknown("OPTION", None). -/
theorem optionArgumentParse (n v w1 w2 : Str)
    (hn : cleanTok n) (hv : cleanTok v)
    (hw1 : ∀ c ∈ w1, isWS c = true) (hw2 : ∀ c ∈ w2, isWS c = true) :
    reqFrom (str ("OPTION ") ++ n ++ w1 ++ '=' :: w2 ++ v)
      = some (Request.Option (n, some v)) ∧
    reqFrom (str ("OPTION ") ++ n ++ ' ' :: v) = some (Request.Option (n, some v)) ∧
    reqFrom (str ("OPTION ") ++ n) = some (Request.Option (n, none)) ∧
    reqFrom (str ("OPTION")) = some (Request.Unknown (str ("OPTION"), none)) := by
  have hnne : n ≠ [] := hn.1
  have hvne : v ≠ [] := hv.1
  have hnws := cleanTok_not_ws hn
  have hvws := cleanTok_not_ws hv
  have hnsp := cleanTok_not_mem_space hn
  have hvsp := cleanTok_not_mem_space hv
  have hneq := cleanTok_not_mem_eq hn
  have hveq := cleanTok_not_mem_eq hv
  have hnTL : trimLeft n = n := trimLeft_eq_self_of_all hnws
  have hnTR : trimRight n = n := trimRight_eq_self_of_all hnws
  have hnT : trim n = n := trim_eq_self_of_all hnws
  have hvTL : trimLeft v = v := trimLeft_eq_self_of_all hvws
  have hvTR : trimRight v = v := trimRight_eq_self_of_all hvws
  have hvT : trim v = v := trim_eq_self_of_all hvws
  have hOsp : ' ' ∉ ('O' :: str ("PTION")) := by decide
  have hOtrim : trim ('O' :: str ("PTION")) = 'O' :: str ("PTION") := by decide
  have hbody : ∀ arg : Str, reqBody ('O' :: str ("PTION")) (some arg)
      = dispatchReq Command.Option ('O' :: str ("PTION")) (some arg) := by
    intro arg
    unfold reqBody
    rw [show commandOfStr ('O' :: str ("PTION")) = some Command.Option from by decide]
  refine ⟨?_, ?_, ?_, by decide⟩
  · have hrestne : n ++ w1 ++ '=' :: w2 ++ v ≠ [] := by simp [hnne]
    have hmidne : w1 ++ '=' :: (w2 ++ v) ≠ [] := by cases w1 <;> simp
    have hTRmid : trimRight (w1 ++ '=' :: (w2 ++ v)) = w1 ++ '=' :: (w2 ++ v) := by
      have h1 : w1 ++ '=' :: (w2 ++ v) = (w1 ++ '=' :: w2) ++ v := by simp
      rw [h1, trimRight_append_right hvne hvTR]
    have hXY : n ++ w1 ++ '=' :: w2 ++ v = n ++ (w1 ++ '=' :: (w2 ++ v)) := by simp
    have htrim1 : trim (n ++ w1 ++ '=' :: w2 ++ v) = n ++ w1 ++ '=' :: w2 ++ v := by
      rw [hXY]
      exact trim_append_clean hnne hnTL hmidne hTRmid
    have hcap1 := cAP_keyword_space hOsp hOtrim hrestne htrim1
    have hin1 : str ("OPTION ") ++ n ++ w1 ++ '=' :: w2 ++ v
        = ('O' :: str ("PTION")) ++ ' ' :: (n ++ w1 ++ '=' :: w2 ++ v) := rfl
    rw [hin1, reqFrom_eq_body hcap1 (by decide), hbody]
    have hsp1 : splitOnce '=' (n ++ w1 ++ '=' :: w2 ++ v) = some (n ++ w1, w2 ++ v) := by
      have h2 : n ++ w1 ++ '=' :: w2 ++ v = (n ++ w1) ++ '=' :: (w2 ++ v) := by simp
      rw [h2]
      refine splitOnce_append '=' _ _ ?_
      intro hmem
      rcases List.mem_append.mp hmem with h | h
      · exact hneq h
      · exact not_mem_eq_of_ws hw1 h
    simp only [dispatchReq]
    rw [hsp1]
    simp only [Option.some.injEq]
    rw [trim_append_ws_right hnne hnTL hnTR hw1, trim_ws_append_left hw2 hvTL hvTR]
  · have hrestne : n ++ ' ' :: v ≠ [] := by simp [hnne]
    have hTRtail : trimRight (' ' :: v) = ' ' :: v := by
      have h3 : (' ' :: v) = [' '] ++ v := rfl
      rw [h3, trimRight_append_right hvne hvTR]
    have htrim2 : trim (n ++ ' ' :: v) = n ++ ' ' :: v :=
      trim_append_clean hnne hnTL (by simp) hTRtail
    have hcap2 := cAP_keyword_space hOsp hOtrim hrestne htrim2
    have hin2 : str ("OPTION ") ++ n ++ ' ' :: v
        = ('O' :: str ("PTION")) ++ ' ' :: (n ++ ' ' :: v) := rfl
    rw [hin2, reqFrom_eq_body hcap2 (by decide), hbody]
    have hsp2 : splitOnce '=' (n ++ ' ' :: v) = none := by
      refine splitOnce_eq_none_of_not_mem '=' _ ?_
      intro hmem
      rcases List.mem_append.mp hmem with h | h
      · exact hneq h
      · rcases List.mem_cons.mp h with h | h
        · exact absurd h (by decide)
        · exact hveq h
    have hsp3 : splitOnce ' ' (n ++ ' ' :: v) = some (n, v) := splitOnce_append ' ' n v hnsp
    simp only [dispatchReq]
    rw [hsp2, hsp3]
    simp only [Option.some.injEq]
    rw [hnT, hvT]
  · have hcap3 := cAP_keyword_space hOsp hOtrim hnne hnT
    have hin3 : str ("OPTION ") ++ n = ('O' :: str ("PTION")) ++ ' ' :: n := rfl
    rw [hin3, reqFrom_eq_body hcap3 (by decide), hbody]
    have hsp4 : splitOnce '=' n = none := splitOnce_eq_none_of_not_mem '=' n hneq
    have hsp5 : splitOnce ' ' n = none := splitOnce_eq_none_of_not_mem ' ' n hnsp
    simp only [dispatchReq]
    rw [hsp4, hsp5]
    simp only [Option.some.injEq]
    rw [hnT]

/-- Witness for the OPTION parsing theorem at name "name", value "value", and
three-space whitespace runs. -/
theorem optionArgumentParse_witness :
    cleanTok (str ("name")) ∧ cleanTok (str ("value")) ∧
    (reqFrom (str ("OPTION ") ++ str ("name") ++ str ("   ") ++ '=' :: str ("   ") ++ str ("value"))
      = some (Request.Option (str ("name"), some (str ("value")))) ∧
    reqFrom (str ("OPTION ") ++ str ("name") ++ ' ' :: str ("value"))
      = some (Request.Option (str ("name"), some (str ("value")))) ∧
    reqFrom (str ("OPTION ") ++ str ("name")) = some (Request.Option (str ("name"), none)) ∧
    reqFrom (str ("OPTION")) = some (Request.Unknown (str ("OPTION"), none))) :=
  ⟨by decide, by decide,
    optionArgumentParse (str ("name")) (str ("value")) (str ("   ")) (str ("   "))
      (by decide) (by decide) (by decide) (by decide)⟩

theorem digit_not_ws {c : Char} (h : c.isDigit = true) : isWS c = false := by
  cases hws : isWS c
  · rfl
  · exfalso
    have hor : c = ' ' ∨ c = '\t' ∨ c = '\n' ∨ c = '\r' := by
      simpa [isWS, or_assoc] using hws
    rcases hor with h1 | h1 | h1 | h1 <;> subst h1 <;> exact absurd h (by decide)

theorem not_mem_space_of_digits {tok : Str} (h : ∀ c ∈ tok, c.isDigit = true) :
    ' ' ∉ tok := by
  intro hmem
  exact absurd (h ' ' hmem) (by decide)

/-- The textual form of an optional ERR description: nothing, or a space and
the description. -/
def descPart (d : Option Str) : Str :=
  match d with
  | none => []
  | some r => ' ' :: r

theorem respBody_ERR (p : Str) :
    respBody ('E' :: str ("RR")) (some p)
      = Response.Err (decodeErrTok (errSplit p).1, (errSplit p).2) := by
  unfold respBody
  rw [show commandOfStr ('E' :: str ("RR")) = some Command.Err from by decide]
  simp only [dispatchResp]

/-- C4: ERR response decoding: bare "ERR" parses to Custom(("ERR", None));
with a remainder, the first space-delimited token is decoded as the error code
(a known numeric code yields the known-code form, any other well-formed integer
yields the custom-code form carrying that exact value) and the rest of the
remainder, if non-empty, becomes the optional description. -/
theorem errDecoding (tok : Str) (d : Option Str) (htok : tok ≠ [])
    (hdig : ∀ c ∈ tok, c.isDigit = true)
    (hdesc : ∀ r, d = some r → r ≠ [] ∧ trimLeft r = r ∧ trimRight r = r) :
    (∀ g : GpgErrorCode, gpgTryFrom tok = some g →
      respFrom (str ("ERR ") ++ tok ++ descPart d)
        = some (Response.Err (.Gpg g, d))) ∧
    (∀ m : Nat, gpgTryFrom tok = none → customTryFrom tok = some m →
      respFrom (str ("ERR ") ++ tok ++ descPart d)
        = some (Response.Err (.Custom m, d))) ∧
    respFrom (str ("ERR")) = some (Response.Custom (str ("ERR"), none)) := by
  have hnws : ∀ c ∈ tok, isWS c = false := fun c hc => digit_not_ws (hdig c hc)
  have hsp : ' ' ∉ tok := not_mem_space_of_digits hdig
  have core : respFrom (str ("ERR ") ++ tok ++ descPart d)
      = some (Response.Err (decodeErrTok tok, d)) := by
    cases d with
    | none =>
      have htrim : trim tok = tok := trim_eq_self_of_all hnws
      have hcap := cAP_keyword_space (A := 'E' :: str ("RR")) (by decide) (by decide)
        htok htrim
      rw [show str ("ERR ") ++ tok ++ descPart none = ('E' :: str ("RR")) ++ ' ' :: tok from by
            show (str ("ERR ") ++ tok) ++ [] = _
            rw [List.append_nil]
            rfl]
      rw [respFrom_eq_body hcap (by decide), respBody_ERR]
      rw [show errSplit tok = (tok, none) from by
            unfold errSplit
            rw [splitOnce_eq_none_of_not_mem ' ' tok hsp]]
    | some r =>
      obtain ⟨hrne, hrTL, hrTR⟩ := hdesc r rfl
      have hTRtail : trimRight (' ' :: r) = ' ' :: r := by
        have hsplit : (' ' :: r) = [' '] ++ r := rfl
        rw [hsplit, trimRight_append_right hrne hrTR]
      have htrim : trim (tok ++ ' ' :: r) = tok ++ ' ' :: r :=
        trim_append_clean htok (trimLeft_eq_self_of_all hnws) (by simp) hTRtail
      have hcap := cAP_keyword_space (A := 'E' :: str ("RR")) (by decide) (by decide)
        (by simp) htrim
      rw [show str ("ERR ") ++ tok ++ descPart (some r)
            = ('E' :: str ("RR")) ++ ' ' :: (tok ++ ' ' :: r) from by
            show (str ("ERR ") ++ tok) ++ (' ' :: r) = _
            rw [List.append_assoc]
            rfl]
      rw [respFrom_eq_body hcap (by decide), respBody_ERR]
      rw [show errSplit (tok ++ ' ' :: r) = (tok, some r) from by
            unfold errSplit
            rw [splitOnce_append ' ' tok r hsp]
            cases r with
            | nil => exact absurd rfl hrne
            | cons a b => rfl]
  refine ⟨?_, ?_, by decide⟩
  · intro g hg
    rw [core]
    unfold decodeErrTok
    rw [hg]
  · intro m h1 h2
    rw [core]
    unfold decodeErrTok
    rw [h1, h2]

/-- Witness for the ERR decoding theorem at the known code 16383 (Eof) with a
description, and at the custom code 32909. -/
theorem errDecoding_witness :
    (str ("16383") ≠ [] ∧ (∀ c ∈ str ("16383"), c.isDigit = true) ∧
      gpgTryFrom (str ("16383")) = some GpgErrorCode.Eof ∧
      gpgTryFrom (str ("32909")) = none ∧ customTryFrom (str ("32909")) = some 32909) ∧
    respFrom (str ("ERR ") ++ str ("16383") ++ descPart (some (str ("with description"))))
      = some (Response.Err (.Gpg .Eof, some (str ("with description")))) ∧
    respFrom (str ("ERR ") ++ str ("32909") ++ descPart none)
      = some (Response.Err (.Custom 32909, none)) :=
  ⟨⟨by decide, by decide, by decide, by decide, by decide⟩,
    (errDecoding (str ("16383")) (some (str ("with description"))) (by decide) (by decide)
        (by intro r hr; injection hr with h; subst h
            exact ⟨by decide, by decide, by decide⟩)).1 GpgErrorCode.Eof (by decide),
    ((errDecoding (str ("32909")) none (by decide) (by decide)
        (by intro r hr; exact absurd hr (by simp))).2.1) 32909 (by decide) (by decide)⟩

/-- Whether a parsed response is the Custom variant. -/
def isCustomResp : Option Response → Bool
  | some (.Custom _) => true
  | _ => false

/-- C3 counterexample: the ERR line "ERR abc" has a non-numeric code token,
yet the Response parser yields the Err variant (with the UnknownErrno
fallback), not the Custom variant. -/
theorem errNonNumeric_counterexample :
    respFrom (str ("ERR abc")) = some (Response.Err (.Gpg .UnknownErrno, none)) ∧
    isCustomResp (respFrom (str ("ERR abc"))) = false := by
  decide

/-- C3 amended: for every ERR response line whose code token is not numeric at
all, the Response parser yields the Err variant carrying the UnknownErrno
fallback code (and the description), not the Custom variant. -/
theorem errNonNumericFallback (p : Str) (hne : p ≠ []) (hTL : trimLeft p = p)
    (hTR : trimRight p = p) (hnum : parseU32 (errSplit p).1 = none) :
    respFrom (str ("ERR ") ++ p)
      = some (Response.Err (.Gpg .UnknownErrno, (errSplit p).2)) := by
  have htrim : trim p = p := by rw [trim, hTL, hTR]
  have hcap := cAP_keyword_space (A := 'E' :: str ("RR")) (by decide) (by decide) hne htrim
  rw [show str ("ERR ") ++ p = ('E' :: str ("RR")) ++ ' ' :: p from rfl]
  rw [respFrom_eq_body hcap (by decide), respBody_ERR]
  unfold decodeErrTok gpgTryFrom customTryFrom
  rw [hnum]
  rfl

/-- Witness for the non-numeric ERR fallback theorem at the line
"ERR abc def". -/
theorem errNonNumericFallback_witness :
    (str ("abc def") ≠ [] ∧ trimLeft (str ("abc def")) = str ("abc def") ∧
      trimRight (str ("abc def")) = str ("abc def") ∧
      parseU32 (errSplit (str ("abc def"))).1 = none) ∧
    respFrom (str ("ERR ") ++ str ("abc def"))
      = some (Response.Err (.Gpg .UnknownErrno, (errSplit (str ("abc def"))).2)) :=
  ⟨⟨by decide, by decide, by decide, by decide⟩,
    errNonNumericFallback (str ("abc def")) (by decide) (by decide) (by decide) (by decide)⟩

theorem reqFrom_isSome_of_cons {input : Str} {c : Char} {cs : Str} {params : Option Str}
    (h : commandAndParameters input = (c :: cs, params)) :
    (reqFrom input).isSome = true := by
  unfold reqFrom
  rw [h]
  by_cases hc : c = '#' <;> simp [hc]

theorem respFrom_isSome_of_cons {input : Str} {c : Char} {cs : Str} {params : Option Str}
    (h : commandAndParameters input = (c :: cs, params)) :
    (respFrom input).isSome = true := by
  unfold respFrom
  rw [h]
  by_cases hc : c = '#' <;> simp [hc]

/-- C2 counterexample: on the empty input line (and on a line starting with a
space) the keyword slice `[..1]` panics, so parsing is not total: the parsers
are undefined (modelled `none`) there rather than degrading to
Unknown/Custom. -/
theorem parserPanic_counterexample :
    reqFrom (str ("")) = none ∧ respFrom (str ("")) = none ∧
    reqFrom (str (" x")) = none ∧ respFrom (str (" x")) = none := by
  decide

/-- C2 amended: for every input line whose keyword (first-space split, trimmed)
is non-empty, parsing as a Request or as a Response returns a value; any
unrecognized keyword degrades to Unknown (requests) or Custom (responses), and
a recognized keyword missing its required argument (bare OPTION, bare ERR)
degrades the same way. -/
theorem parsersTotalAndDegrade (input : Str)
    (h : (commandAndParameters input).1 ≠ []) :
    (reqFrom input).isSome = true ∧ (respFrom input).isSome = true ∧
    ((commandAndParameters input).1.head? ≠ some '#' →
      commandOfStr (commandAndParameters input).1 = none →
      reqFrom input = some (.Unknown (commandAndParameters input)) ∧
      respFrom input = some (.Custom (commandAndParameters input))) ∧
    (commandAndParameters input = (str ("OPTION"), none) →
      reqFrom input = some (.Unknown (str ("OPTION"), none))) ∧
    (commandAndParameters input = (str ("ERR"), none) →
      respFrom input = some (.Custom (str ("ERR"), none))) := by
  rcases hcap : commandAndParameters input with ⟨kw, params⟩
  rw [hcap] at h
  simp only at h
  cases kw with
  | nil => exact absurd rfl h
  | cons c cs =>
    refine ⟨reqFrom_isSome_of_cons hcap, respFrom_isSome_of_cons hcap, ?_, ?_, ?_⟩
    · intro hhash huk
      simp only [List.head?] at hhash
      simp only at huk
      have hc : c ≠ '#' := by
        intro he
        exact hhash (by rw [he])
      constructor
      · rw [reqFrom_eq_body hcap hc]
        unfold reqBody
        rw [huk]
      · rw [respFrom_eq_body hcap hc]
        unfold respBody
        rw [huk]
    · intro hopt
      rw [Prod.mk.injEq] at hopt
      obtain ⟨h1, h2⟩ := hopt
      have h1' : c :: cs = 'O' :: str ("PTION") := h1
      injection h1' with hce hcse
      subst hce
      subst hcse
      subst h2
      rw [reqFrom_eq_body hcap (by decide)]
      rw [show reqBody ('O' :: str ("PTION")) none
            = Request.Unknown (str ("OPTION"), none) from by decide]
    · intro herr
      rw [Prod.mk.injEq] at herr
      obtain ⟨h1, h2⟩ := herr
      have h1' : c :: cs = 'E' :: str ("RR") := h1
      injection h1' with hce hcse
      subst hce
      subst hcse
      subst h2
      rw [respFrom_eq_body hcap (by decide)]
      rw [show respBody ('E' :: str ("RR")) none
            = Response.Custom (str ("ERR"), none) from by decide]

/-- Witness for the totality-and-degrade theorem at the unrecognized line
"FOO bar". -/
theorem parsersTotalAndDegrade_witness :
    ((commandAndParameters (str ("FOO bar"))).1 ≠ [] ∧
      (commandAndParameters (str ("FOO bar"))).1.head? ≠ some '#' ∧
      commandOfStr (commandAndParameters (str ("FOO bar"))).1 = none) ∧
    (reqFrom (str ("FOO bar"))
        = some (.Unknown (commandAndParameters (str ("FOO bar")))) ∧
      respFrom (str ("FOO bar"))
        = some (.Custom (commandAndParameters (str ("FOO bar"))))) :=
  ⟨⟨by decide, by decide, by decide⟩,
    (parsersTotalAndDegrade (str ("FOO bar")) (by decide)).2.2.1 (by decide) (by decide)⟩


/-- The extensional-agreement relation between a lib.rs response and a
response.rs response: same constructor and fields, up to the error field being
the raw token on one side and its decoding on the other. -/
def respMatches : LibResponse → Response → Bool
  | .Ok a, .Ok b => decide (a = b)
  | .Err p, .Err q => decide (q.1 = decodeErrTok p.1) && decide (q.2 = p.2)
  | .S p, .S q => decide (p = q)
  | .D a, .D b => decide (a = b)
  | .Inquire p, .Inquire q => decide (p = q)
  | .Comment a, .Comment b => decide (a = b)
  | .Custom p, .Custom q => decide (p = q)
  | _, _ => false

/-- `respMatches` lifted to the parsers' partiality. -/
def respOptMatches : Option LibResponse → Option Response → Bool
  | none, none => true
  | some a, some b => respMatches a b
  | _, _ => false

theorem respMatches_custom (p : Str × Option Str) :
    respMatches (.Custom p) (.Custom p) = true := by
  simp [respMatches]

theorem respMatches_ok (v : Option Str) : respMatches (.Ok v) (.Ok v) = true := by
  simp [respMatches]

theorem respMatches_d (v : Str) : respMatches (.D v) (.D v) = true := by
  simp [respMatches]

theorem respMatches_s (p : Str × Str) : respMatches (.S p) (.S p) = true := by
  simp [respMatches]

theorem respMatches_inq (p : Str × Str) : respMatches (.Inquire p) (.Inquire p) = true := by
  simp [respMatches]

theorem reqBodyL_eq_reqBody (kw : Str) (params : Option Str) (h : kw ≠ str ("OPTION")) :
    reqBodyL kw params = reqBody kw params := by
  by_cases h1 : kw = str ("BYE")
  · subst h1; rfl
  by_cases h2 : kw = str ("RESET")
  · subst h2; rfl
  by_cases h3 : kw = str ("END")
  · subst h3; rfl
  by_cases h4 : kw = str ("HELP")
  · subst h4; rfl
  by_cases h5 : kw = str ("QUIT")
  · subst h5; rfl
  by_cases h6 : kw = str ("OPTION")
  · exact absurd h6 h
  by_cases h7 : kw = str ("CANCEL")
  · subst h7; rfl
  by_cases h8 : kw = str ("NOP")
  · subst h8; rfl
  by_cases h9 : kw = str ("OK")
  · subst h9; rfl
  by_cases h10 : kw = str ("ERR")
  · subst h10; cases params <;> rfl
  by_cases h11 : kw = str ("S")
  · subst h11; cases params <;> rfl
  by_cases h12 : kw = str ("INQUIRE")
  · subst h12; cases params <;> rfl
  by_cases h13 : kw = str ("D")
  · subst h13; cases params <;> rfl
  by_cases h14 : kw = str ("#")
  · subst h14; rfl
  have hcmd : commandOfStr kw = none := by
    unfold commandOfStr
    rw [if_neg h1, if_neg h2, if_neg h3, if_neg h4, if_neg h5, if_neg h6, if_neg h7,
      if_neg h8, if_neg h9, if_neg h10, if_neg h11, if_neg h12, if_neg h13, if_neg h14]
  unfold reqBodyL reqBody
  rw [hcmd, if_neg h1, if_neg h2, if_neg h3, if_neg h4, if_neg h5, if_neg h6, if_neg h7,
    if_neg h8, if_neg h13]

theorem respBodyL_matches (kw : Str) (params : Option Str) :
    respMatches (respBodyL kw params) (respBody kw params) = true := by
  by_cases h1 : kw = str ("BYE")
  · subst h1; exact respMatches_custom _
  by_cases h2 : kw = str ("RESET")
  · subst h2; exact respMatches_custom _
  by_cases h3 : kw = str ("END")
  · subst h3; exact respMatches_custom _
  by_cases h4 : kw = str ("HELP")
  · subst h4; exact respMatches_custom _
  by_cases h5 : kw = str ("QUIT")
  · subst h5; exact respMatches_custom _
  by_cases h6 : kw = str ("OPTION")
  · subst h6; exact respMatches_custom _
  by_cases h7 : kw = str ("CANCEL")
  · subst h7; exact respMatches_custom _
  by_cases h8 : kw = str ("NOP")
  · subst h8; exact respMatches_custom _
  by_cases h9 : kw = str ("OK")
  · subst h9; exact respMatches_ok _
  by_cases h10 : kw = str ("ERR")
  · subst h10
    cases params with
    | none => exact respMatches_custom _
    | some p =>
      show respMatches (LibResponse.Err (errSplit p))
        (Response.Err (decodeErrTok (errSplit p).1, (errSplit p).2)) = true
      simp [respMatches]
  by_cases h11 : kw = str ("S")
  · subst h11
    cases params with
    | none => exact respMatches_custom _
    | some p =>
      show respMatches
          (match splitOnce ' ' p with
           | none => LibResponse.Custom (str ("S"), some p)
           | some (_, []) => LibResponse.Custom (str ("S"), some p)
           | some (k, v) => LibResponse.S (k, v))
          (match splitOnce ' ' p with
           | none => Response.Custom (str ("S"), some p)
           | some (_, []) => Response.Custom (str ("S"), some p)
           | some (k, v) => Response.S (k, v)) = true
      rcases hsp : splitOnce ' ' p with _ | ⟨k, v⟩
      · exact respMatches_custom _
      · cases v with
        | nil => exact respMatches_custom _
        | cons c0 cv => exact respMatches_s _
  by_cases h12 : kw = str ("INQUIRE")
  · subst h12
    cases params with
    | none => exact respMatches_custom _
    | some p =>
      show respMatches
          (match splitOnce ' ' p with
           | none => LibResponse.Custom (str ("INQUIRE"), some p)
           | some (_, []) => LibResponse.Custom (str ("INQUIRE"), some p)
           | some (k, v) => LibResponse.Inquire (k, v))
          (match splitOnce ' ' p with
           | none => Response.Custom (str ("INQUIRE"), some p)
           | some (_, []) => Response.Custom (str ("INQUIRE"), some p)
           | some (k, v) => Response.Inquire (k, v)) = true
      rcases hsp : splitOnce ' ' p with _ | ⟨k, v⟩
      · exact respMatches_custom _
      · cases v with
        | nil => exact respMatches_custom _
        | cons c0 cv => exact respMatches_inq _
  by_cases h13 : kw = str ("D")
  · subst h13
    cases params with
    | none => exact respMatches_custom _
    | some p => exact respMatches_d _
  by_cases h14 : kw = str ("#")
  · subst h14; exact respMatches_custom _
  have hcmd : commandOfStr kw = none := by
    unfold commandOfStr
    rw [if_neg h1, if_neg h2, if_neg h3, if_neg h4, if_neg h5, if_neg h6, if_neg h7,
      if_neg h8, if_neg h9, if_neg h10, if_neg h11, if_neg h12, if_neg h13, if_neg h14]
  unfold respBodyL respBody
  rw [hcmd, if_neg h9, if_neg h13, if_neg h10, if_neg h12, if_neg h11]
  exact respMatches_custom _

/-- C10 amended: the borrowed-string (lib.rs) and owned-string
(request.rs/response.rs) parsers agree — the response pair up to the error
field being a raw token versus its decoding — on every line whose keyword does
not start with a comment marker and (for the request pair) is not OPTION; they
genuinely differ on comment lines and on OPTION arguments with whitespace
around the separators. -/
theorem parserPairsAgree (input kw : Str) (params : Option Str)
    (hcap : commandAndParameters input = (kw, params))
    (hhash : kw.head? ≠ some '#') :
    (kw ≠ str ("OPTION") → reqFromL input = reqFrom input) ∧
    respOptMatches (respFromL input) (respFrom input) = true := by
  cases kw with
  | nil =>
    constructor
    · intro
      unfold reqFrom reqFromL
      rw [hcap]
    · unfold respFrom respFromL
      rw [hcap]
      rfl
  | cons c cs =>
    have hc : c ≠ '#' := by
      intro he
      exact hhash (by rw [he]; rfl)
    constructor
    · intro hopt
      rw [reqFromL_eq_body hcap hc, reqFrom_eq_body hcap hc,
        reqBodyL_eq_reqBody _ _ hopt]
    · rw [respFromL_eq_body hcap hc, respFrom_eq_body hcap hc]
      exact respBodyL_matches _ _

/-- Witness for the parser-agreement theorem at the line "S a b". -/
theorem parserPairsAgree_witness :
    (commandAndParameters (str ("S a b")) = (str ("S"), some (str ("a b"))) ∧
      (str ("S")).head? ≠ some '#' ∧ str ("S") ≠ str ("OPTION")) ∧
    (reqFromL (str ("S a b")) = reqFrom (str ("S a b")) ∧
      respOptMatches (respFromL (str ("S a b"))) (respFrom (str ("S a b"))) = true) :=
  ⟨⟨by decide, by decide, by decide⟩,
    ⟨(parserPairsAgree (str ("S a b")) (str ("S")) (some (str ("a b")))
        (by decide) (by decide)).1 (by decide),
      (parserPairsAgree (str ("S a b")) (str ("S")) (some (str ("a b")))
        (by decide) (by decide)).2⟩⟩

/-- C10 counterexample: on the comment line "#x" the two request parsers (and
the two response parsers) disagree — lib.rs keeps the split remainder (none)
while request.rs/response.rs re-read the raw line — and on
"OPTION a = b" the request parsers disagree about trimming. -/
theorem parserPairs_counterexample :
    reqFromL (str ("#x")) = some (Request.Comment none) ∧
    reqFrom (str ("#x")) = some (Request.Comment (some (str ("x")))) ∧
    reqFromL (str ("#x")) ≠ reqFrom (str ("#x")) ∧
    respFromL (str ("#x")) = some (LibResponse.Comment none) ∧
    respFrom (str ("#x")) = some (Response.Comment (some (str ("x")))) ∧
    respOptMatches (respFromL (str ("#x"))) (respFrom (str ("#x"))) = false ∧
    reqFromL (str ("OPTION a = b"))
      = some (Request.Option (str ("a "), some (str (" b")))) ∧
    reqFrom (str ("OPTION a = b"))
      = some (Request.Option (str ("a"), some (str ("b")))) := by
  decide

/-- The sink state carried by a step, whichever way the step went. -/
def stepState : Step → WState
  | .cont ws => ws
  | .halt _ ws => ws

theorem tryWrite_oracle (ws : WState) (l : Str) : (tryWrite ws l).1.oracle = ws.oracle := by
  unfold tryWrite
  by_cases hw : ws.oracle ws.idx = true <;> simp [hw]

theorem tryWrite_out (ws : WState) (l : Str) : ∃ t, (tryWrite ws l).1.out = ws.out ++ t := by
  unfold tryWrite
  by_cases hw : ws.oracle ws.idx = true
  · rw [if_pos hw]
    exact ⟨[l], rfl⟩
  · rw [if_neg hw]
    exact ⟨[], (List.append_nil _).symm⟩

theorem writeStep_state (ws : WState) (r : Response) :
    stepState (writeStep ws r) = (tryWrite ws (respRender r)).1 := by
  unfold writeStep
  rcases htw : tryWrite ws (respRender r) with ⟨ws', b⟩
  cases b <;> rfl

theorem writeStep_out (ws : WState) (r : Response) :
    ∃ t, (stepState (writeStep ws r)).out = ws.out ++ t := by
  rw [writeStep_state]
  exact tryWrite_out ws (respRender r)

theorem writeStep_cont {ws : WState} (r : Response) (hw : ws.oracle ws.idx = true) :
    writeStep ws r = .cont ⟨ws.oracle, ws.idx + 1, ws.out ++ [respRender r]⟩ := by
  unfold writeStep tryWrite
  rw [if_pos hw]

theorem helpFold_oracle (v : List Str) : ∀ ws : WState,
    (v.foldl (fun a s => (tryWrite a (respRender (.Comment (some s)))).1) ws).oracle
      = ws.oracle := by
  induction v with
  | nil => intro ws; rfl
  | cons s rest ih =>
    intro ws
    rw [List.foldl_cons, ih, tryWrite_oracle]

theorem helpFold_out (v : List Str) : ∀ ws : WState,
    ∃ t, (v.foldl (fun a s => (tryWrite a (respRender (.Comment (some s)))).1) ws).out
      = ws.out ++ t := by
  induction v with
  | nil => intro ws; exact ⟨[], (List.append_nil _).symm⟩
  | cons s rest ih =>
    intro ws
    obtain ⟨t1, ht1⟩ := tryWrite_out ws (respRender (.Comment (some s)))
    obtain ⟨t2, ht2⟩ := ih (tryWrite ws (respRender (.Comment (some s)))).1
    rw [List.foldl_cons]
    exact ⟨t1 ++ t2, by rw [ht2, ht1, List.append_assoc]⟩

theorem dropWhile_suffix' (p : Char → Bool) (y : Str) :
    ∃ s, y = s ++ List.dropWhile p y := by
  induction y with
  | nil => exact ⟨[], rfl⟩
  | cons c t ih =>
    by_cases hc : p c = true
    · obtain ⟨s, hs⟩ := ih
      refine ⟨c :: s, ?_⟩
      rw [List.dropWhile_cons, if_pos hc, List.cons_append]
      exact congrArg (c :: ·) hs
    · refine ⟨[], ?_⟩
      rw [List.nil_append, List.dropWhile_cons, if_neg hc]

theorem trimRight_prefix (x : Str) : ∃ t, x = trimRight x ++ t := by
  obtain ⟨s, hs⟩ := dropWhile_suffix' isWS x.reverse
  refine ⟨s.reverse, ?_⟩
  have hback : trimRight x ++ s.reverse = x := by
    rw [trimRight, ← List.reverse_append, ← hs, List.reverse_reverse]
  exact hback.symm

theorem dropWhile_head_false {p : Char → Bool} :
    ∀ {y : Str} {c : Char} {t : Str}, List.dropWhile p y = c :: t → p c = false := by
  intro y
  induction y with
  | nil => intro c t h; exact List.noConfusion h
  | cons a as ih =>
    intro c t h
    rw [List.dropWhile_cons] at h
    by_cases hp : p a = true
    · rw [if_pos hp] at h
      exact ih h
    · have hpa : p a = false := by
        cases hb : p a
        · rfl
        · exact absurd hb hp
      rw [if_neg hp] at h
      injection h with h1 h2
      rw [← h1]
      exact hpa

theorem trim_head_not_ws {l : Str} {c : Char} {t : Str} (h : trim l = c :: t) :
    isWS c = false := by
  obtain ⟨tt, htt⟩ := trimRight_prefix (trimLeft l)
  have h' : trimRight (trimLeft l) = c :: t := h
  rw [h', List.cons_append] at htt
  exact dropWhile_head_false htt

theorem splitOnce_cons_ne {sep c : Char} (t : Str) (h : c ≠ sep) :
    splitOnce sep (c :: t) = (splitOnce sep t).map (fun p => (c :: p.1, p.2)) := by
  show (if c = sep then some ([], t)
        else (splitOnce sep t).map (fun p => (c :: p.1, p.2))) = _
  rw [if_neg h]

theorem cAP_fst_cons {c : Char} {t : Str} (hc : c ≠ ' ') (hw : isWS c = false) :
    ∃ u, (commandAndParameters (c :: t)).1 = c :: u := by
  unfold commandAndParameters
  rw [splitOnce_cons_ne t hc]
  cases hsp : splitOnce ' ' t with
  | none => exact ⟨t, rfl⟩
  | some q =>
    obtain ⟨a, b⟩ := q
    cases b with
    | nil =>
      refine ⟨trimRight a, ?_⟩
      show trim (c :: a) = c :: trimRight a
      exact trim_cons_of_not_ws hw
    | cons b0 bs =>
      refine ⟨trimRight a, ?_⟩
      show trim (c :: a) = c :: trimRight a
      exact trim_cons_of_not_ws hw

theorem reqFrom_trim_isSome {l : Str} (h1 : trim l ≠ []) :
    (reqFrom (trim l)).isSome = true := by
  cases hc : trim l with
  | nil => exact absurd hc h1
  | cons c t =>
    have hw : isWS c = false := trim_head_not_ws hc
    have hcsp : c ≠ ' ' := by
      intro he
      rw [he] at hw
      exact absurd hw (by decide)
    obtain ⟨u, hu⟩ := cAP_fst_cons (t := t) hcsp hw
    have hcap : commandAndParameters (c :: t) = (c :: u, (commandAndParameters (c :: t)).2) := by
      rw [← hu]
    exact reqFrom_isSome_of_cons hcap

/-- Whether a stream item parses (after trimming) to one of the reserved
requests D, End, or Cancel, on which the dispatcher hits `todo!()`. -/
def reservedItem : Except Str Str → Bool
  | .error _ => false
  | .ok l =>
    match reqFrom (trim l) with
    | some (.D _) => true
    | some .End => true
    | some .Cancel => true
    | _ => false

theorem processItem_ok_eq (h : Handler) (ws : WState) (l : Str) :
    processItem h ws (.ok l)
      = if trim l = [] then Step.cont ws
        else if (trim l).length > 1000 then writeStep ws (.Err (.Gpg .TooLarge, none))
        else processCore h ws (trim l) := rfl

theorem stepState_dispatch_out (h : Handler) (ws : WState) (req : Request) :
    ∃ t, (stepState (dispatchLine h ws req)).out = ws.out ++ t := by
  cases req with
  | Comment v => exact ⟨[], (List.append_nil _).symm⟩
  | Reset => exact writeStep_out ws _
  | Bye => exact writeStep_out ws _
  | Nop => exact writeStep_out ws _
  | Option p =>
    obtain ⟨s, v⟩ := p
    simp only [dispatchLine]
    cases ho : h.option s v with
    | ok r => exact writeStep_out ws _
    | error e => exact writeStep_out ws _
  | Unknown p =>
    obtain ⟨v, pp⟩ := p
    simp only [dispatchLine]
    cases hh : h.handle v pp with
    | ok r =>
      cases r with
      | none => exact ⟨[], (List.append_nil _).symm⟩
      | some rr => exact writeStep_out ws _
    | error e => exact writeStep_out ws _
  | D d => exact ⟨[], (List.append_nil _).symm⟩
  | End => exact ⟨[], (List.append_nil _).symm⟩
  | Cancel => exact ⟨[], (List.append_nil _).symm⟩
  | Quit => exact ⟨[], (List.append_nil _).symm⟩
  | Help =>
    simp only [dispatchLine]
    cases hh : h.help with
    | none => exact writeStep_out ws _
    | some v =>
      obtain ⟨t2, ht2⟩ :=
        writeStep_out (v.foldl (fun a s => (tryWrite a (respRender (.Comment (some s)))).1) ws)
          (.Ok none)
      obtain ⟨t1, ht1⟩ := helpFold_out v ws
      exact ⟨t1 ++ t2, by rw [ht2, ht1, List.append_assoc]⟩

theorem stepState_item_out (h : Handler) (ws : WState) (it : Except Str Str) :
    ∃ t, (stepState (processItem h ws it)).out = ws.out ++ t := by
  cases it with
  | error e => exact writeStep_out ws _
  | ok l =>
    rw [processItem_ok_eq]
    by_cases h1 : trim l = []
    · rw [if_pos h1]
      exact ⟨[], (List.append_nil _).symm⟩
    · rw [if_neg h1]
      by_cases h2 : (trim l).length > 1000
      · rw [if_pos h2]
        exact writeStep_out ws _
      · rw [if_neg h2]
        unfold processCore
        cases hr : reqFrom (trim l) with
        | none => exact ⟨[], (List.append_nil _).symm⟩
        | some req => exact stepState_dispatch_out h ws req

theorem runLoop_out (h : Handler) (items : List (Except Str Str)) :
    ∀ ws : WState, ∃ t, (runLoop h items ws).2.out = ws.out ++ t := by
  induction items with
  | nil => intro ws; exact ⟨[], (List.append_nil _).symm⟩
  | cons it rest ih =>
    intro ws
    obtain ⟨t1, ht1⟩ := stepState_item_out h ws it
    unfold runLoop
    cases hp : processItem h ws it with
    | cont ws' =>
      have ht1' : ws'.out = ws.out ++ t1 := by
        rw [hp] at ht1
        exact ht1
      obtain ⟨t2, ht2⟩ := ih ws'
      refine ⟨t1 ++ t2, ?_⟩
      show (runLoop h rest ws').2.out = ws.out ++ (t1 ++ t2)
      rw [ht2, ht1', List.append_assoc]
    | halt o ws' =>
      have ht1' : ws'.out = ws.out ++ t1 := by
        rw [hp] at ht1
        exact ht1
      exact ⟨t1, ht1'⟩

theorem dispatchLine_ok (h : Handler) (ws : WState) (req : Request)
    (hω : ∀ n, ws.oracle n = true)
    (hD : ∀ d, req ≠ .D d) (hE : req ≠ .End) (hC : req ≠ .Cancel) :
    (∃ ws', dispatchLine h ws req = .cont ws' ∧ ws'.oracle = ws.oracle) ∨
    (∃ ws', dispatchLine h ws req = .halt .ok ws') := by
  cases req with
  | Comment v => exact .inl ⟨ws, rfl, rfl⟩
  | Reset => exact .inl ⟨_, writeStep_cont _ (hω _), rfl⟩
  | Bye => exact .inl ⟨_, writeStep_cont _ (hω _), rfl⟩
  | Nop => exact .inl ⟨_, writeStep_cont _ (hω _), rfl⟩
  | Option p =>
    obtain ⟨s, v⟩ := p
    simp only [dispatchLine]
    cases ho : h.option s v with
    | ok r => exact .inl ⟨_, writeStep_cont _ (hω _), rfl⟩
    | error e => exact .inl ⟨_, writeStep_cont _ (hω _), rfl⟩
  | Unknown p =>
    obtain ⟨v, pp⟩ := p
    simp only [dispatchLine]
    cases hh : h.handle v pp with
    | ok r =>
      cases r with
      | none => exact .inr ⟨ws, rfl⟩
      | some rr => exact .inl ⟨_, writeStep_cont _ (hω _), rfl⟩
    | error e => exact .inl ⟨_, writeStep_cont _ (hω _), rfl⟩
  | D d => exact absurd rfl (hD d)
  | End => exact absurd rfl hE
  | Cancel => exact absurd rfl hC
  | Quit => exact .inr ⟨ws, rfl⟩
  | Help =>
    simp only [dispatchLine]
    cases hh : h.help with
    | none => exact .inl ⟨_, writeStep_cont _ (hω _), rfl⟩
    | some v =>
      refine .inl ⟨_, writeStep_cont _ ?_, ?_⟩
      · rw [helpFold_oracle]
        exact hω _
      · exact helpFold_oracle v ws

theorem processItem_ok (h : Handler) (ws : WState) (it : Except Str Str)
    (hω : ∀ n, ws.oracle n = true) (hres : reservedItem it = false) :
    (∃ ws', processItem h ws it = .cont ws' ∧ ws'.oracle = ws.oracle) ∨
    (∃ ws', processItem h ws it = .halt .ok ws') := by
  cases it with
  | error e => exact .inl ⟨_, writeStep_cont _ (hω _), rfl⟩
  | ok l =>
    rw [processItem_ok_eq]
    by_cases h1 : trim l = []
    · rw [if_pos h1]
      exact .inl ⟨ws, rfl, rfl⟩
    · rw [if_neg h1]
      by_cases h2 : (trim l).length > 1000
      · rw [if_pos h2]
        exact .inl ⟨_, writeStep_cont _ (hω _), rfl⟩
      · rw [if_neg h2]
        unfold processCore
        cases hr : reqFrom (trim l) with
        | none =>
          exfalso
          have hsome := reqFrom_trim_isSome h1
          rw [hr] at hsome
          exact Bool.noConfusion hsome
        | some req =>
          have hres' : (match reqFrom (trim l) with
              | some (.D _) => true
              | some .End => true
              | some .Cancel => true
              | _ => false) = false := hres
          refine dispatchLine_ok h ws req hω ?_ ?_ ?_
          · intro d he
            rw [hr, he] at hres'
            exact Bool.noConfusion hres'
          · intro he
            rw [hr, he] at hres'
            exact Bool.noConfusion hres'
          · intro he
            rw [hr, he] at hres'
            exact Bool.noConfusion hres'

theorem runLoop_ok (h : Handler) (items : List (Except Str Str)) :
    ∀ ws : WState, (∀ n, ws.oracle n = true) →
    (∀ it ∈ items, reservedItem it = false) → (runLoop h items ws).1 = .ok := by
  induction items with
  | nil => intro ws _ _; rfl
  | cons it rest ih =>
    intro ws hω hres
    unfold runLoop
    rcases processItem_ok h ws it hω (hres it (List.mem_cons_self it rest)) with
      ⟨ws', hp, hor⟩ | ⟨ws', hp⟩
    · rw [hp]
      exact ih ws' (fun n => by rw [hor]; exact hω n)
        (fun x hx => hres x (List.mem_cons_of_mem it hx))
    · rw [hp]

/-- C1 amended: the greeting is written unconditionally before any input is
read; a failure to write it aborts the session by panicking (the greeting
write is unwrapped), not with the write-error outcome; with all writes
succeeding and no line parsing to the reserved D/End/Cancel requests the
dispatcher never terminates abnormally; read errors and handler failures are
reported to the peer with the loop continuing; and lines parsed as D, End, or
Cancel abort the session with a panic (`todo!()`) instead of being reported. -/
theorem dispatcherAbnormalTermination :
    (∀ (h : Handler) (oracle : Nat → Bool) (items : List (Except Str Str)),
      oracle 0 = true → ∃ t, (start h oracle items).2 = greeting :: t) ∧
    (∀ (h : Handler) (oracle : Nat → Bool) (items : List (Except Str Str)),
      oracle 0 = false → start h oracle items = (.crash, [])) ∧
    (∀ (h : Handler) (oracle : Nat → Bool) (items : List (Except Str Str)),
      (∀ n, oracle n = true) → (∀ it ∈ items, reservedItem it = false) →
      (start h oracle items).1 = .ok) ∧
    (∀ (h : Handler) (ws : WState) (e : Str), ws.oracle ws.idx = true →
      processItem h ws (.error e)
        = .cont ⟨ws.oracle, ws.idx + 1,
            ws.out ++ [respRender (.Err (.Gpg .Unexpected, some e))]⟩) ∧
    (∀ (h : Handler) (ws : WState) (v : Str) (p : Option Str)
        (err : ResponseErr × Option Str),
      h.handle v p = .error err → ws.oracle ws.idx = true →
      dispatchLine h ws (.Unknown (v, p))
        = .cont ⟨ws.oracle, ws.idx + 1, ws.out ++ [respRender (.Err err)]⟩) ∧
    (∀ (h : Handler) (ws : WState) (d : Str),
      dispatchLine h ws (.D d) = .halt .crash ws ∧
      dispatchLine h ws .End = .halt .crash ws ∧
      dispatchLine h ws .Cancel = .halt .crash ws) := by
  refine ⟨?_, ?_, ?_, ?_, ?_, ?_⟩
  · intro h oracle items h0
    have htw : tryWrite ⟨oracle, 0, []⟩ greeting = (⟨oracle, 1, [greeting]⟩, true) := by
      unfold tryWrite
      simp [h0]
    unfold start
    rw [htw]
    show ∃ t, (match runLoop h items ⟨oracle, 1, [greeting]⟩ with
          | (o, ws') => (o, ws'.out)).2 = greeting :: t
    obtain ⟨t, ht⟩ := runLoop_out h items ⟨oracle, 1, [greeting]⟩
    rcases hr : runLoop h items ⟨oracle, 1, [greeting]⟩ with ⟨o, ws'⟩
    rw [hr] at ht
    exact ⟨t, ht⟩
  · intro h oracle items h0
    have htw : tryWrite ⟨oracle, 0, []⟩ greeting = (⟨oracle, 1, []⟩, false) := by
      unfold tryWrite
      simp [h0]
    unfold start
    rw [htw]
  · intro h oracle items hω hres
    have htw : tryWrite ⟨oracle, 0, []⟩ greeting = (⟨oracle, 1, [greeting]⟩, true) := by
      unfold tryWrite
      simp [hω 0]
    unfold start
    rw [htw]
    show (match runLoop h items ⟨oracle, 1, [greeting]⟩ with
          | (o, ws') => (o, ws'.out)).1 = Outcome.ok
    have hok := runLoop_ok h items ⟨oracle, 1, [greeting]⟩ (fun n => hω n) hres
    rcases hr : runLoop h items ⟨oracle, 1, [greeting]⟩ with ⟨o, ws'⟩
    rw [hr] at hok
    exact hok
  · intro h ws e hw
    exact writeStep_cont _ hw
  · intro h ws v p err herr hw
    simp only [dispatchLine]
    rw [herr]
    exact writeStep_cont _ hw
  · intro h ws d
    exact ⟨rfl, rfl, rfl⟩

/-- Witness for the dispatcher-termination theorem: a NOP conversation over an
always-succeeding sink ends normally with the greeting written first. -/
theorem dispatcherAbnormalTermination_witness :
    ((∀ n, allOk n = true) ∧ allOk 0 = true ∧
      (∀ it ∈ [Except.ok (str ("NOP"))], reservedItem it = false)) ∧
    (start testHandler allOk [.ok (str ("NOP"))]).1 = .ok ∧
    (∃ t, (start testHandler allOk [.ok (str ("NOP"))]).2 = greeting :: t) :=
  ⟨⟨fun _ => rfl, rfl, by decide⟩,
    dispatcherAbnormalTermination.2.2.1 testHandler allOk [.ok (str ("NOP"))]
      (fun _ => rfl) (by decide),
    dispatcherAbnormalTermination.1 testHandler allOk [.ok (str ("NOP"))] rfl⟩

/-- C1 counterexample: a line parsed as D aborts the session with a panic —
no response is written for it and the loop does not continue — and a failed
greeting write ends in a panic, not the write-error outcome. -/
theorem dispatcherReserved_counterexample :
    start testHandler allOk [.ok (str ("D x")), .ok (str ("NOP"))]
      = (.crash, [greeting]) ∧
    start testHandler (fun _ => false) [] = (.crash, []) := by
  decide

theorem trim_length_le (l : Str) : (trim l).length ≤ l.length := by
  have h1 : (trimLeft l).length ≤ l.length := length_dropWhile_le' _ _
  have h2 : (trimRight (trimLeft l)).length ≤ (trimLeft l).length := by
    have h3 := length_dropWhile_le' isWS (trimLeft l).reverse
    simpa [trimRight] using h3
  exact le_trans h2 h1

/-- C5 amended: an input line of at most 1000 characters (in particular one of
exactly 1000) is never rejected as too large and is processed normally; a line
whose length after trimming exceeds 1000 makes the dispatcher write the
well-known too-large Err with no description, discard the line, and stay in
the Active state (the step continues); a 1001-character raw line that trims to
at most 1000 characters is processed normally rather than rejected. -/
theorem lineLengthBoundary :
    (∀ (h : Handler) (ws : WState) (line : Str), line.length ≤ 1000 →
      processItem h ws (.ok line)
        = if trim line = [] then Step.cont ws else processCore h ws (trim line)) ∧
    (∀ (h : Handler) (ws : WState) (line : Str), (trim line).length > 1000 →
      ws.oracle ws.idx = true →
      processItem h ws (.ok line)
        = .cont ⟨ws.oracle, ws.idx + 1,
            ws.out ++ [respRender (.Err (.Gpg .TooLarge, none))]⟩) := by
  constructor
  · intro h ws line hlen
    rw [processItem_ok_eq]
    by_cases h1 : trim line = []
    · rw [if_pos h1, if_pos h1]
    · have hle : ¬(trim line).length > 1000 := by
        have := trim_length_le line
        omega
      rw [if_neg h1, if_neg hle, if_neg h1]
  · intro h ws line hlen hw
    have h1 : trim line ≠ [] := by
      intro he
      rw [he] at hlen
      exact absurd hlen (by decide)
    rw [processItem_ok_eq, if_neg h1, if_pos hlen]
    exact writeStep_cont _ hw

/-- An oversized raw line that trims back under the limit: 1001 characters of
which 998 are trailing spaces. -/
def longNopLine : Str := str ("NOP") ++ List.replicate 998 ' '

/-- An oversized line that stays oversized after trimming. -/
def longALine : Str := List.replicate 1001 'A'

/-- The initial sink over an always-succeeding oracle. -/
def ws0 : WState := ⟨allOk, 0, []⟩

set_option maxRecDepth 40000 in
/-- Witness for the length-boundary theorem: a short NOP line is dispatched,
and a line of 1001 non-blank characters is answered with the too-large Err
while the loop continues. -/
theorem lineLengthBoundary_witness :
    ((str ("NOP")).length ≤ 1000 ∧ (trim longALine).length > 1000 ∧
      ws0.oracle ws0.idx = true) ∧
    processItem testHandler ws0 (.ok (str ("NOP")))
      = (if trim (str ("NOP")) = [] then Step.cont ws0
         else processCore testHandler ws0 (trim (str ("NOP")))) ∧
    processItem testHandler ws0 (.ok longALine)
      = .cont ⟨ws0.oracle, ws0.idx + 1,
          ws0.out ++ [respRender (.Err (.Gpg .TooLarge, none))]⟩ :=
  ⟨⟨by decide, by decide, rfl⟩,
    lineLengthBoundary.1 testHandler ws0 (str ("NOP")) (by decide),
    lineLengthBoundary.2 testHandler ws0 longALine (by decide) rfl⟩

set_option maxRecDepth 40000 in
/-- C5 counterexample: a raw input line of exactly 1001 characters ("NOP"
followed by 998 spaces) is not rejected as too large — the dispatcher trims it
first and answers OK — so the 1001-character trigger only holds for the
trimmed length. -/
theorem lineLength_counterexample :
    longNopLine.length = 1001 ∧
    start testHandler allOk [.ok longNopLine] = (.ok, [greeting, str ("OK")]) := by
  constructor
  · decide
  · decide

/-- C6: end-to-end dispatcher behavior: NOP yields exactly one OK line; QUIT
yields zero response lines and ends the session successfully; a blank line
yields zero response lines with the session remaining active; HELP with the
Handler reporting ["FOO", "BAR"] yields two #-comment lines then exactly one
OK line, and a failure writing an individual comment line is swallowed rather
than fatal. -/
theorem endToEndDispatch :
    (∀ h : Handler, start h allOk [.ok (str ("NOP"))] = (.ok, [greeting, str ("OK")])) ∧
    (∀ h : Handler, start h allOk [.ok (str ("QUIT"))] = (.ok, [greeting])) ∧
    (∀ (h : Handler) (ws : WState), processItem h ws (.ok (str (""))) = .cont ws) ∧
    (∀ h : Handler, start h allOk [.ok (str (""))] = (.ok, [greeting])) ∧
    (∀ h : Handler, h.help = some [str ("FOO"), str ("BAR")] →
      start h allOk [.ok (str ("HELP"))]
        = (.ok, [greeting, str ("# FOO"), str ("# BAR"), str ("OK")])) ∧
    (∀ h : Handler, h.help = some [str ("FOO"), str ("BAR")] →
      start h (fun n => n == 0 || n == 3) [.ok (str ("HELP"))]
        = (.ok, [greeting, str ("OK")])) := by
  refine ⟨?_, ?_, ?_, ?_, ?_, ?_⟩
  · intro h
    rfl
  · intro h
    rfl
  · intro h ws
    rfl
  · intro h
    rfl
  · intro h hh
    obtain ⟨hf, hhelp, hopt⟩ := h
    have hh' : hhelp = some [str ("FOO"), str ("BAR")] := hh
    subst hh'
    rfl
  · intro h hh
    obtain ⟨hf, hhelp, hopt⟩ := h
    have hh' : hhelp = some [str ("FOO"), str ("BAR")] := hh
    subst hh'
    rfl

/-- Witness for the end-to-end theorem at a concrete handler advertising
["FOO", "BAR"]. -/
theorem endToEndDispatch_witness :
    testHandler.help = some [str ("FOO"), str ("BAR")] ∧
    start testHandler allOk [.ok (str ("HELP"))]
      = (.ok, [greeting, str ("# FOO"), str ("# BAR"), str ("OK")]) ∧
    start testHandler (fun n => n == 0 || n == 3) [.ok (str ("HELP"))]
      = (.ok, [greeting, str ("OK")]) :=
  ⟨rfl, endToEndDispatch.2.2.2.2.1 testHandler rfl,
    endToEndDispatch.2.2.2.2.2 testHandler rfl⟩
